import Mathlib

/-!
Shallow embedding of `src/import/standard.rs` — the asynchronous glTF import
pipeline (parse → validate → source buffers → source images → assemble).

Modelling conventions:
* A byte buffer is `List Nat`, decoded pixel data is `List Nat`.
* A future's eventual, memoized result (a `.shared()` future / `AsyncData`)
  is represented by its resolved value `Except Error α`: every consumer of a
  shared future observes the same single result.
* A Rust panic (`unwrap` on `None`, `unreachable!`, out-of-bounds indexing or
  slicing) is represented by `Option.none` at the stage where it occurs:
  scheduling-time panics make the surrounding constructor return `none`,
  resolution-time panics make the eventual result of the future `none`.
* Calls to `Source::source_external_data` are recorded in a trace
  (`List String` of the URIs passed), in the order the calls are made while
  the pipeline stages run.
* External collaborators (the JSON parser, the validators, the image codec
  and the byte source) are out of scope per the spec and appear as opaque
  function fields of an `Env`.
-/

namespace GltfStd

abbrev Bytes := List Nat

abbrev Pixels := List Nat

/-- `image_crate::ImageFormat` restricted to the two values the source uses. -/
inductive ImageFormat where
  | jpeg
  | png
deriving DecidableEq, Repr

/-- A validation error as recorded by the validator callbacks: a (path, kind)
pair, both abstracted to `Nat`. -/
abbrev ValidationErr := Nat × Nat

/-- `import::Error` — the error taxonomy of the import module.
`lazyLoading` wraps the upstream (shared) error of a dependency. -/
inductive Error where
  | malformedJson (e : Nat)
  | validation (errs : List ValidationErr)
  | decode (e : Nat)
  | lazyLoading (e : Error)
  | fetchFailure (e : Nat)
deriving DecidableEq, Repr

deriving instance DecidableEq for Except

/-- `json::Buffer`: the fields `source_buffers` reads. -/
structure Buffer where
  uri : Option String
deriving DecidableEq, Repr

/-- `json::buffer::View`: the fields `source_images` reads. -/
structure BufferView where
  buffer : Nat
  byte_offset : Nat
  byte_length : Nat
deriving DecidableEq, Repr

/-- `json::Image`: the fields `source_images` reads. -/
structure Image where
  uri : Option String
  mime_type : Option String
  buffer_view : Option Nat
deriving DecidableEq, Repr

/-- `json::Root`: the parsed document tree (the arrays this module reads). -/
structure Root where
  buffers : List Buffer
  buffer_views : List BufferView
  images : List Image
deriving DecidableEq, Repr

/-- The external collaborators the pipeline consumes, as opaque functions:
the byte source, the image codec, the JSON parser and the two validators.
A validator returns the list of (path, kind) errors it reports. -/
structure Env where
  source_external_data : String → Except Error Bytes
  load_from_memory_with_format : Bytes → ImageFormat → Except Nat Pixels
  load_from_memory : Bytes → Except Nat Pixels
  from_reader : Bytes → Except Nat Root
  validate_minimally : Root → List ValidationErr
  validate_completely : Root → List ValidationErr

/-- The body of the `source_buffers` map closure for one buffer entry:
`entry.uri.as_ref().unwrap()` (panic when the URI is absent, modelled as
`none`), then one `source_external_data` call whose shared result is the
buffer's resource.  Returns (resource, URI passed to the fetcher). -/
def source_buffer_entry (env : Env) (entry : Buffer) :
    Option (Except Error Bytes × String) :=
  match entry.uri with
  | none => none
  | some uri => some (env.source_external_data uri, uri)

/-- The `source_buffers` loop over `json.buffers`, first panic aborts. -/
def source_buffers_loop (env : Env) :
    List Buffer → Option (List (Except Error Bytes × String))
  | [] => some []
  | entry :: rest =>
    match source_buffer_entry env entry with
    | none => none
    | some r =>
      match source_buffers_loop env rest with
      | none => none
      | some rs => some (r :: rs)

/-- `source_buffers`: one shared fetch resource per buffer descriptor,
plus the trace of fetcher calls it makes. -/
def source_buffers (env : Env) (json : Root) :
    Option (List (Except Error Bytes) × List String) :=
  match source_buffers_loop env json.buffers with
  | none => none
  | some pairs => some (pairs.map Prod.fst, pairs.map Prod.snd)

/-- The mime-type match at the top of the image loop:
`entry.mime_type.as_ref().map(|x| match ...)`.  `none` models the
`unreachable!` panic on a mime-type string other than the two known ones. -/
def imageFormat (entry : Image) : Option (Option ImageFormat) :=
  match entry.mime_type with
  | none => some none
  | some s =>
    if s = "image/jpeg" then some (some ImageFormat.jpeg)
    else if s = "image/png" then some (some ImageFormat.png)
    else none

/-- `load_from_memory_with_format` / `load_from_memory` dispatch on the
optional format hint, wrapping codec failure in `Error.decode` — the shared
tail of both image resolution paths. -/
def decodePixels (env : Env) (format : Option ImageFormat) (data : Bytes) :
    Except Error Pixels :=
  match format with
  | some f =>
    match env.load_from_memory_with_format data f with
    | Except.ok image => Except.ok image
    | Except.error err => Except.error (Error.decode err)
  | none =>
    match env.load_from_memory data with
    | Except.ok image => Except.ok image
    | Except.error err => Except.error (Error.decode err)

/-- Eventual result of the `Type::Owned` future: fetch the image's own URI,
then decode (with the hint when present, sniffing otherwise). -/
def resolveOwned (env : Env) (format : Option ImageFormat) (uri : String) :
    Except Error Pixels :=
  match env.source_external_data uri with
  | Except.error e => Except.error e
  | Except.ok data => decodePixels env format data

/-- Eventual result of the `Type::Borrowed` future: attach to the buffer's
shared resource (`map_err(Error::LazyLoading)`), slice
`[offset, offset + len)` (panic — `none` — when out of range), then decode
with `format.unwrap()` (panic when the hint is absent). -/
def resolveBorrowed (env : Env) (format : Option ImageFormat)
    (offset len : Nat) (buffer : Except Error Bytes) :
    Option (Except Error Pixels) :=
  match buffer with
  | Except.error e => some (Except.error (Error.lazyLoading e))
  | Except.ok data =>
    if offset + len ≤ data.length then
      match format with
      | none => none
      | some f =>
        some (match env.load_from_memory_with_format
                ((data.drop offset).take len) f with
              | Except.ok image => Except.ok image
              | Except.error err => Except.error (Error.decode err))
    else none

/-- One iteration of the `source_images` loop: compute the format hint
(`unreachable!` on an unknown mime string), classify the entry as
`Type::Owned` (URI present) or `Type::Borrowed` (buffer view present,
indexing `json.buffer_views` then `buffers` at scheduling time), with
`unreachable!` when the entry has neither.  Returns the image's eventual
resource (`none` inside = resolution-time panic) and the fetcher calls this
iteration makes. -/
def source_image_entry (env : Env) (json : Root)
    (buffers : List (Except Error Bytes)) (entry : Image) :
    Option (Option (Except Error Pixels) × List String) :=
  match imageFormat entry with
  | none => none
  | some format =>
    match entry.uri with
    | some uri => some (some (resolveOwned env format uri), [uri])
    | none =>
      match entry.buffer_view with
      | some index =>
        match json.buffer_views[index]? with
        | none => none
        | some bufferView =>
          match buffers[bufferView.buffer]? with
          | none => none
          | some buffer =>
            some (resolveBorrowed env format bufferView.byte_offset
                    bufferView.byte_length buffer, [])
      | none => none

/-- The `source_images` loop over `json.images`, first panic aborts. -/
def source_images_loop (env : Env) (json : Root)
    (buffers : List (Except Error Bytes)) :
    List Image → Option (List (Option (Except Error Pixels) × List String))
  | [] => some []
  | entry :: rest =>
    match source_image_entry env json buffers entry with
    | none => none
    | some r =>
      match source_images_loop env json buffers rest with
      | none => none
      | some rs => some (r :: rs)

/-- `source_images`: one shared decoded-pixels resource per image descriptor,
plus the trace of fetcher calls made while scheduling them. -/
def source_images (env : Env) (json : Root)
    (buffers : List (Except Error Bytes)) :
    Option (List (Option (Except Error Pixels)) × List String) :=
  match source_images_loop env json buffers json.images with
  | none => none
  | some pairs => some (pairs.map Prod.fst, (pairs.map Prod.snd).flatten)

/-- `config::ValidationStrategy`. -/
inductive ValidationStrategy where
  | skip
  | minimal
  | complete
deriving DecidableEq, Repr

/-- `validate`: `Skip` succeeds immediately with the document unchanged;
`Minimal` / `Complete` run the corresponding validator and fail with
`Error::Validation` exactly when the collected error list is non-empty. -/
def validate (env : Env) (json : Root) (strategy : ValidationStrategy) :
    Except Error Root :=
  match strategy with
  | ValidationStrategy.skip => Except.ok json
  | ValidationStrategy.minimal =>
    let errs := env.validate_minimally json
    if errs.isEmpty then Except.ok json else Except.error (Error.validation errs)
  | ValidationStrategy.complete =>
    let errs := env.validate_completely json
    if errs.isEmpty then Except.ok json else Except.error (Error.validation errs)

/-- The assembled `Gltf` asset: the validated document plus the two
index-aligned resource sequences. -/
structure Gltf where
  root : Root
  buffers : List (Except Error Bytes)
  images : List (Option (Except Error Pixels))

/-- `import`: parse (`Error::MalformedJson` on failure), validate per the
configured strategy, schedule buffer resources, schedule image resources,
assemble the asset.  The outer `Option` is `none` when a scheduling stage
panics; the trace lists every `source_external_data` call made, in order.
Parse or validation failure produces the error with an empty trace. -/
def importGltf (env : Env) (data : Bytes) (strategy : ValidationStrategy) :
    Option (Except Error Gltf × List String) :=
  match env.from_reader data with
  | Except.error e => some (Except.error (Error.malformedJson e), [])
  | Except.ok json =>
    match validate env json strategy with
    | Except.error e => some (Except.error e, [])
    | Except.ok json2 =>
      match source_buffers env json2 with
      | none => none
      | some (buffers, btrace) =>
        match source_images env json2 buffers with
        | none => none
        | some (images, itrace) =>
          some (Except.ok ⟨json2, buffers, images⟩, btrace ++ itrace)

/-! ### Concrete fixtures used by witnesses -/

/-- A concrete document: two buffers (the second one's URI fails to fetch in
`testEnv`), two buffer views, and three images — one external, one embedded
in buffer 0, one embedded in the failing buffer 1. -/
def testRoot : Root where
  buffers := [⟨some "a.bin"⟩, ⟨some "bad.bin"⟩]
  buffer_views := [⟨0, 10, 20⟩, ⟨1, 0, 4⟩]
  images :=
    [ ⟨some "img.png", some "image/png", none⟩,
      ⟨none, some "image/jpeg", some 0⟩,
      ⟨none, some "image/png", some 1⟩ ]

/-- A concrete environment: fetching `"bad.bin"` fails, any other URI yields
the 40 bytes `0..39`; the codec is the identity on the bytes it is given (so
witnesses can see exactly which bytes reached the decoder); parsing `[0]`
fails and anything else parses to `testRoot`; both validators accept. -/
def testEnv : Env where
  source_external_data := fun uri =>
    if uri = "bad.bin" then Except.error (Error.fetchFailure 7)
    else Except.ok (List.range 40)
  load_from_memory_with_format := fun data _ => Except.ok data
  load_from_memory := fun data => Except.ok data
  from_reader := fun data =>
    if data = [0] then Except.error 3 else Except.ok testRoot
  validate_minimally := fun _ => []
  validate_completely := fun _ => []

/-- A document whose only buffer has no URI (the embedded-buffer shape). -/
def embeddedRoot : Root where
  buffers := [⟨none⟩]
  buffer_views := []
  images := []

/-! ### Helper lemmas about the scheduling loops -/

theorem source_buffers_loop_getElem (env : Env) :
    ∀ (l : List Buffer) (prs : List (Except Error Bytes × String)),
      source_buffers_loop env l = some prs →
      ∀ i : Nat, prs[i]? = (l[i]?).bind (source_buffer_entry env) := by
  intro l
  induction l with
  | nil =>
    intro prs h i
    simp only [source_buffers_loop, Option.some.injEq] at h
    subst h
    simp
  | cons a t ih =>
    intro prs h i
    simp only [source_buffers_loop] at h
    cases ha : source_buffer_entry env a with
    | none => simp only [ha] at h; exact Option.noConfusion h
    | some r =>
      simp only [ha] at h
      cases ht : source_buffers_loop env t with
      | none => simp only [ht] at h; exact Option.noConfusion h
      | some rs =>
        simp only [ht, Option.some.injEq] at h
        subst h
        cases i with
        | zero => simp [ha]
        | succ j => simp [ih rs ht j]

theorem source_buffers_loop_length (env : Env) :
    ∀ (l : List Buffer) (prs : List (Except Error Bytes × String)),
      source_buffers_loop env l = some prs → prs.length = l.length := by
  intro l
  induction l with
  | nil =>
    intro prs h
    simp only [source_buffers_loop, Option.some.injEq] at h
    subst h
    rfl
  | cons a t ih =>
    intro prs h
    simp only [source_buffers_loop] at h
    cases ha : source_buffer_entry env a with
    | none => simp only [ha] at h; exact Option.noConfusion h
    | some r =>
      simp only [ha] at h
      cases ht : source_buffers_loop env t with
      | none => simp only [ht] at h; exact Option.noConfusion h
      | some rs =>
        simp only [ht, Option.some.injEq] at h
        subst h
        simp [ih rs ht]

theorem source_buffers_loop_panic (env : Env) :
    ∀ (l : List Buffer), (∃ b ∈ l, source_buffer_entry env b = none) →
      source_buffers_loop env l = none := by
  intro l
  induction l with
  | nil => rintro ⟨b, hb, _⟩; cases hb
  | cons a t ih =>
    rintro ⟨b, hb, hnone⟩
    rcases List.mem_cons.mp hb with h | h
    · subst h
      simp only [source_buffers_loop, hnone]
    · simp only [source_buffers_loop]
      cases ha : source_buffer_entry env a with
      | none => rfl
      | some r => simp [ih ⟨b, h, hnone⟩]

theorem source_images_loop_length (env : Env) (json : Root)
    (buffers : List (Except Error Bytes)) :
    ∀ (l : List Image) (prs : List (Option (Except Error Pixels) × List String)),
      source_images_loop env json buffers l = some prs → prs.length = l.length := by
  intro l
  induction l with
  | nil =>
    intro prs h
    simp only [source_images_loop, Option.some.injEq] at h
    subst h
    rfl
  | cons a t ih =>
    intro prs h
    simp only [source_images_loop] at h
    cases ha : source_image_entry env json buffers a with
    | none => simp only [ha] at h; exact Option.noConfusion h
    | some r =>
      simp only [ha] at h
      cases ht : source_images_loop env json buffers t with
      | none => simp only [ht] at h; exact Option.noConfusion h
      | some rs =>
        simp only [ht, Option.some.injEq] at h
        subst h
        simp [ih rs ht]

/-! ### Claims -/

/-- C7: `validate` with the `Skip` strategy succeeds and returns the document
unchanged for every document and every environment — in particular it never
consults either validator, so even documents with out-of-range indices or
other invariant violations pass. -/
theorem validate_skip_always_ok (env : Env) (json : Root) :
    validate env json ValidationStrategy.skip = Except.ok json := rfl

/-- C1: import fails fast.  (1) When parsing fails, `import` resolves to
`Error.malformedJson` with an empty fetcher-call trace — the source fetcher
is never invoked.  (2) When parsing succeeds but validation fails, `import`
resolves to exactly the validation error, again with an empty trace.
(3) Every validation failure is an `Error.validation` carrying a non-empty
error list. -/
theorem import_fail_fast (env : Env) (data : Bytes)
    (strategy : ValidationStrategy) :
    (∀ e, env.from_reader data = Except.error e →
      importGltf env data strategy =
        some (Except.error (Error.malformedJson e), [])) ∧
    (∀ json e, env.from_reader data = Except.ok json →
      validate env json strategy = Except.error e →
      importGltf env data strategy = some (Except.error e, [])) ∧
    (∀ json e, validate env json strategy = Except.error e →
      ∃ errs, e = Error.validation errs ∧ errs ≠ []) := by
  refine ⟨?_, ?_, ?_⟩
  · intro e he
    simp only [importGltf, he]
  · intro json e hok herr
    simp only [importGltf, hok, herr]
  · intro json e herr
    cases strategy with
    | skip => simp [validate] at herr
    | minimal =>
      simp only [validate] at herr
      cases hle : env.validate_minimally json with
      | nil => simp [hle] at herr
      | cons x xs =>
        simp only [hle, List.isEmpty_cons, Bool.false_eq_true, if_false,
          Except.error.injEq] at herr
        exact ⟨x :: xs, herr.symm, by simp⟩
    | complete =>
      simp only [validate] at herr
      cases hle : env.validate_completely json with
      | nil => simp [hle] at herr
      | cons x xs =>
        simp only [hle, List.isEmpty_cons, Bool.false_eq_true, if_false,
          Except.error.injEq] at herr
        exact ⟨x :: xs, herr.symm, by simp⟩

/-- C1 witness: a byte stream `testEnv` fails to parse makes `import` resolve
to `Error.malformedJson` with no fetcher call. -/
theorem import_fail_fast_witness :
    importGltf testEnv [0] ValidationStrategy.skip =
      some (Except.error (Error.malformedJson 3), []) :=
  (import_fail_fast testEnv [0] ValidationStrategy.skip).1 3 rfl

/-- C9: `source_buffers` requires every buffer descriptor to carry a URI —
a document containing a buffer with an absent URI makes `source_buffers`
panic (`unwrap` on `None`, modelled as `none`) instead of skipping the
buffer or returning an error value. -/
theorem source_buffers_missing_uri_panics (env : Env) (json : Root)
    (b : Buffer) (hmem : b ∈ json.buffers) (huri : b.uri = none) :
    source_buffers env json = none := by
  have hentry : source_buffer_entry env b = none := by
    simp [source_buffer_entry, huri]
  simp [source_buffers,
    source_buffers_loop_panic env json.buffers ⟨b, hmem, hentry⟩]

/-- C9 witness: the single-embedded-buffer document panics. -/
theorem source_buffers_missing_uri_panics_witness :
    source_buffers testEnv embeddedRoot = none :=
  source_buffers_missing_uri_panics testEnv embeddedRoot ⟨none⟩
    (by simp [embeddedRoot]) rfl

/-- C2: each buffer descriptor triggers exactly one `source_external_data`
call — the trace of `source_buffers` has exactly one entry per buffer,
namely that buffer's URI — and an embedded image (no URI of its own) makes
no fetcher call at all: its resource is `resolveBorrowed` applied to the
buffer resource already created by `source_buffers`, and its trace
contribution is empty. -/
theorem buffer_fetch_exactly_once (env : Env) (json : Root)
    (buffers : List (Except Error Bytes)) (btrace : List String)
    (hb : source_buffers env json = some (buffers, btrace)) :
    btrace.length = json.buffers.length ∧
    (∀ (i : Nat) (b : Buffer), json.buffers[i]? = some b →
      btrace[i]? = b.uri) ∧
    (∀ (entry : Image) (format : Option ImageFormat)
        (r : Option (Except Error Pixels)) (t : List String),
      entry.uri = none → imageFormat entry = some format →
      source_image_entry env json buffers entry = some (r, t) →
      t = [] ∧ ∃ index bufferView buffer,
        entry.buffer_view = some index ∧
        json.buffer_views[index]? = some bufferView ∧
        buffers[bufferView.buffer]? = some buffer ∧
        r = resolveBorrowed env format bufferView.byte_offset
              bufferView.byte_length buffer) := by
  simp only [source_buffers] at hb
  cases hl : source_buffers_loop env json.buffers with
  | none => simp only [hl] at hb; exact Option.noConfusion hb
  | some pairs =>
    simp only [hl, Option.some.injEq, Prod.mk.injEq] at hb
    obtain ⟨hbuf, htr⟩ := hb
    refine ⟨?_, ?_, ?_⟩
    · rw [← htr, List.length_map]
      exact source_buffers_loop_length env json.buffers pairs hl
    · intro i b hib
      have hp : pairs[i]? = source_buffer_entry env b := by
        rw [source_buffers_loop_getElem env json.buffers pairs hl i, hib]
        exact rfl
      cases hu : b.uri with
      | none =>
        exfalso
        have hnone : source_buffer_entry env b = none := by
          simp [source_buffer_entry, hu]
        rw [hnone, List.getElem?_eq_none_iff] at hp
        have hlen : pairs.length = json.buffers.length :=
          source_buffers_loop_length env json.buffers pairs hl
        have hi : i < json.buffers.length := by
          by_contra hge
          rw [List.getElem?_eq_none (Nat.le_of_not_lt hge)] at hib
          exact Option.noConfusion hib
        omega
      | some uri =>
        have hsome : source_buffer_entry env b =
            some (env.source_external_data uri, uri) := by
          simp [source_buffer_entry, hu]
        rw [hsome] at hp
        rw [← htr, List.getElem?_map, hp]
        rfl
    · intro entry format r t hu hf hentry
      simp only [source_image_entry, hf, hu] at hentry
      cases hbv : entry.buffer_view with
      | none =>
        simp only [hbv] at hentry
        exact Option.noConfusion hentry
      | some index =>
        simp only [hbv] at hentry
        cases hvw : json.buffer_views[index]? with
        | none =>
          simp only [hvw] at hentry
          exact Option.noConfusion hentry
        | some bufferView =>
          simp only [hvw] at hentry
          cases hbr : buffers[bufferView.buffer]? with
          | none =>
            simp only [hbr] at hentry
            exact Option.noConfusion hentry
          | some buffer =>
            simp only [hbr, Option.some.injEq, Prod.mk.injEq] at hentry
            exact ⟨hentry.2.symm,
              index, bufferView, buffer, rfl, hvw, hbr, hentry.1.symm⟩

/-- C2 witness: on the concrete document, `source_buffers` makes one call
per buffer and records buffer 0's URI at position 0 of the trace. -/
theorem buffer_fetch_exactly_once_witness :
    (["a.bin", "bad.bin"] : List String).length = testRoot.buffers.length ∧
    (["a.bin", "bad.bin"] : List String)[0]? =
      (Buffer.mk (some "a.bin")).uri := by
  have h := buffer_fetch_exactly_once testEnv testRoot
      [Except.ok (List.range 40), Except.error (Error.fetchFailure 7)]
      ["a.bin", "bad.bin"] (by decide)
  exact ⟨h.1, h.2.1 0 (Buffer.mk (some "a.bin")) (by decide)⟩

/-- C3: evaluating the image resolver on a descriptor whose mime-type string
is `"image/gif"` — neither `"image/jpeg"` nor `"image/png"` — panics
(`unreachable!`, modelled as `none`): the code does not produce the
explicit unsupported-format error the spec requires. -/
theorem unknown_mime_type_panics :
    source_image_entry testEnv testRoot []
      (Image.mk (some "img.gif") (some "image/gif") none) = none := by
  decide

/-- C4: when the buffer an embedded image depends on resolved to an error
`e`, the image's resource resolves to `Error.lazyLoading e` — the upstream
cause wrapped in a dependency failure — with no fetcher call (empty trace,
so no re-fetch or retry).  Moreover resolution is isolated: an embedded
image's result depends only on its own buffer's resource (any two resource
vectors agreeing at that index give the same result), and an external
image's result does not depend on the buffer resources at all. -/
theorem embedded_image_dependency_failure (env : Env) (json : Root) :
    (∀ (buffers : List (Except Error Bytes)) (entry : Image)
        (format : Option ImageFormat) (index : Nat)
        (bufferView : BufferView) (e : Error),
      entry.uri = none → imageFormat entry = some format →
      entry.buffer_view = some index →
      json.buffer_views[index]? = some bufferView →
      buffers[bufferView.buffer]? = some (Except.error e) →
      source_image_entry env json buffers entry =
        some (some (Except.error (Error.lazyLoading e)), [])) ∧
    (∀ (buffers buffers2 : List (Except Error Bytes)) (entry : Image)
        (index : Nat) (bufferView : BufferView),
      entry.uri = none → entry.buffer_view = some index →
      json.buffer_views[index]? = some bufferView →
      buffers[bufferView.buffer]? = buffers2[bufferView.buffer]? →
      source_image_entry env json buffers entry =
        source_image_entry env json buffers2 entry) ∧
    (∀ (buffers buffers2 : List (Except Error Bytes)) (entry : Image)
        (uri : String),
      entry.uri = some uri →
      source_image_entry env json buffers entry =
        source_image_entry env json buffers2 entry) := by
  refine ⟨?_, ?_, ?_⟩
  · intro buffers entry format index bufferView e hu hf hbv hvw hbr
    simp only [source_image_entry, hf, hu, hbv, hvw, hbr]
    rfl
  · intro buffers buffers2 entry index bufferView hu hbv hvw hagree
    cases hf : imageFormat entry with
    | none => simp only [source_image_entry, hf]
    | some format =>
      simp only [source_image_entry, hf, hu, hbv, hvw, hagree]
  · intro buffers buffers2 entry uri hu
    cases hf : imageFormat entry with
    | none => simp only [source_image_entry, hf]
    | some format => simp only [source_image_entry, hf, hu]

/-- C4 witness: on the concrete document, the image embedded in the failing
buffer 1 resolves to the dependency failure wrapping the fetch error, while
the image embedded in the healthy buffer 0 still resolves successfully. -/
theorem embedded_image_dependency_failure_witness :
    source_image_entry testEnv testRoot
      [Except.ok (List.range 40), Except.error (Error.fetchFailure 7)]
      (Image.mk none (some "image/png") (some 1)) =
      some (some (Except.error (Error.lazyLoading (Error.fetchFailure 7))),
        []) ∧
    source_image_entry testEnv testRoot
      [Except.ok (List.range 40), Except.error (Error.fetchFailure 7)]
      (Image.mk none (some "image/jpeg") (some 0)) =
      some (some (Except.ok (((List.range 40).drop 10).take 20)), []) := by
  refine ⟨?_, by decide⟩
  exact (embedded_image_dependency_failure testEnv testRoot).1
    [Except.ok (List.range 40), Except.error (Error.fetchFailure 7)]
    (Image.mk none (some "image/png") (some 1))
    (some ImageFormat.png) 1 (BufferView.mk 1 0 4) (Error.fetchFailure 7)
    rfl (by decide) rfl (by decide) (by decide)

/-- C5: once the buffer of an embedded image resolved to `data` and the view
is in range, exactly the byte slice `[offset, offset + len)` of `data` is
passed to the decoder: the resolver hands the codec
`(data.drop offset).take len`, whose length is exactly `len` and whose
`i`-th byte is `data`'s `(offset + i)`-th byte. -/
theorem embedded_image_slice_exact (env : Env) (f : ImageFormat)
    (offset len : Nat) (data : Bytes) (h : offset + len ≤ data.length) :
    resolveBorrowed env (some f) offset len (Except.ok data) =
      some (match env.load_from_memory_with_format
              ((data.drop offset).take len) f with
            | Except.ok image => Except.ok image
            | Except.error err => Except.error (Error.decode err)) ∧
    ((data.drop offset).take len).length = len ∧
    (∀ i, i < len → ((data.drop offset).take len)[i]? = data[offset + i]?) := by
  refine ⟨?_, ?_, ?_⟩
  · simp only [resolveBorrowed, h, if_true]
  · rw [List.length_take, List.length_drop]
    omega
  · intro i hi
    rw [List.getElem?_take, if_pos hi, List.getElem?_drop]

/-- C5 witness: with bufferView {offset 10, length 20} over the 40-byte
buffer `0..39`, the identity codec of `testEnv` receives exactly the bytes
`10..29`. -/
theorem embedded_image_slice_exact_witness :
    (((List.range 40).drop 10).take 20).length = 20 ∧
    resolveBorrowed testEnv (some ImageFormat.jpeg) 10 20
        (Except.ok (List.range 40)) =
      some (Except.ok (((List.range 40).drop 10).take 20)) := by
  have h := embedded_image_slice_exact testEnv ImageFormat.jpeg 10 20
    (List.range 40) (by decide)
  exact ⟨h.2.1, h.1.trans (by decide)⟩

/-- C6: for a document that parses and validates successfully (and whose
resource scheduling does not panic), `import` resolves to the complete
asset — the validated document plus the two scheduled, index-aligned
resource sequences — without consulting any resource's eventual value:
nothing about the success of `env.source_external_data` or of the codec is
assumed, so fetch and decode failures never cause `import` itself to fail;
they surface only in the individual resource entries. -/
theorem import_completes_without_awaiting (env : Env) (data : Bytes)
    (strategy : ValidationStrategy) (json : Root)
    (buffers : List (Except Error Bytes)) (btrace : List String)
    (images : List (Option (Except Error Pixels))) (itrace : List String)
    (hp : env.from_reader data = Except.ok json)
    (hv : validate env json strategy = Except.ok json)
    (hb : source_buffers env json = some (buffers, btrace))
    (hi : source_images env json buffers = some (images, itrace)) :
    importGltf env data strategy =
      some (Except.ok ⟨json, buffers, images⟩, btrace ++ itrace) ∧
    buffers.length = json.buffers.length ∧
    images.length = json.images.length := by
  refine ⟨?_, ?_, ?_⟩
  · simp only [importGltf, hp, hv, hb, hi]
  · simp only [source_buffers] at hb
    cases hl : source_buffers_loop env json.buffers with
    | none => simp only [hl] at hb; exact Option.noConfusion hb
    | some pairs =>
      simp only [hl, Option.some.injEq, Prod.mk.injEq] at hb
      rw [← hb.1, List.length_map]
      exact source_buffers_loop_length env json.buffers pairs hl
  · simp only [source_images] at hi
    cases hl : source_images_loop env json buffers json.images with
    | none => simp only [hl] at hi; exact Option.noConfusion hi
    | some pairs =>
      simp only [hl, Option.some.injEq, Prod.mk.injEq] at hi
      rw [← hi.1, List.length_map]
      exact source_images_loop_length env json buffers json.images pairs hl

/-- C6 witness: with `testEnv`, where buffer 1's fetch fails, import still
resolves to the full asset; the failure is visible only inside the
corresponding resource entries. -/
theorem import_completes_without_awaiting_witness :
    importGltf testEnv [1] ValidationStrategy.skip =
      some (Except.ok
        ⟨testRoot,
         [Except.ok (List.range 40), Except.error (Error.fetchFailure 7)],
         [some (Except.ok (List.range 40)),
          some (Except.ok (((List.range 40).drop 10).take 20)),
          some (Except.error (Error.lazyLoading (Error.fetchFailure 7)))]⟩,
        ["a.bin", "bad.bin"] ++ ["img.png"]) :=
  (import_completes_without_awaiting testEnv [1] ValidationStrategy.skip
    testRoot
    [Except.ok (List.range 40), Except.error (Error.fetchFailure 7)]
    ["a.bin", "bad.bin"]
    [some (Except.ok (List.range 40)),
     some (Except.ok (((List.range 40).drop 10).take 20)),
     some (Except.error (Error.lazyLoading (Error.fetchFailure 7)))]
    ["img.png"] (by decide) rfl (by decide) (by decide)).1

/-- C8: on the embedded path the mime-type hint is mandatory and, when it is
present (and recognized), `format.unwrap()` cannot panic: with a hint `f`,
an in-range view and a successfully resolved buffer, the image's resource
is exactly the decode of the slice with the hinted format `f` — never the
`none` that models an `unwrap` failure, and never the format-sniffing
decoder. -/
theorem embedded_image_uses_mime_hint (env : Env) (json : Root)
    (buffers : List (Except Error Bytes)) (entry : Image) (f : ImageFormat)
    (index : Nat) (bufferView : BufferView) (data : Bytes)
    (hu : entry.uri = none)
    (hf : imageFormat entry = some (some f))
    (hbv : entry.buffer_view = some index)
    (hl : json.buffer_views[index]? = some bufferView)
    (hb : buffers[bufferView.buffer]? = some (Except.ok data))
    (hr : bufferView.byte_offset + bufferView.byte_length ≤ data.length) :
    source_image_entry env json buffers entry =
      some (some (match env.load_from_memory_with_format
              ((data.drop bufferView.byte_offset).take
                bufferView.byte_length) f with
            | Except.ok image => Except.ok image
            | Except.error err => Except.error (Error.decode err)), []) := by
  simp only [source_image_entry, hf, hu, hbv, hl, hb, resolveBorrowed, hr,
    if_true]

/-- C8 witness: the jpeg-hinted image embedded in buffer 0 of the concrete
document decodes the slice with the hinted format and does not panic. -/
theorem embedded_image_uses_mime_hint_witness :
    source_image_entry testEnv testRoot
      [Except.ok (List.range 40), Except.error (Error.fetchFailure 7)]
      (Image.mk none (some "image/jpeg") (some 0)) =
      some (some (Except.ok (((List.range 40).drop 10).take 20)), []) :=
  (embedded_image_uses_mime_hint testEnv testRoot
    [Except.ok (List.range 40), Except.error (Error.fetchFailure 7)]
    (Image.mk none (some "image/jpeg") (some 0)) ImageFormat.jpeg
    0 (BufferView.mk 0 10 20) (List.range 40)
    rfl (by decide) rfl (by decide) (by decide) (by decide)).trans (by decide)

/-- C10: image resolution is total only under the invariants Minimal
validation would enforce; when they are violated it panics (`none`) instead
of returning an error value: (1) an image with neither URI nor buffer view;
(2) a buffer-view index out of range of `buffer_views`; (3) a buffer index
out of range of the buffer-resource vector; (4) a view whose
`offset + length` exceeds the resolved buffer's length. -/
theorem unvalidated_image_resolution_panics (env : Env) (json : Root)
    (buffers : List (Except Error Bytes)) :
    (∀ entry : Image, entry.uri = none → entry.buffer_view = none →
      source_image_entry env json buffers entry = none) ∧
    (∀ (entry : Image) (index : Nat), entry.uri = none →
      entry.buffer_view = some index →
      json.buffer_views.length ≤ index →
      source_image_entry env json buffers entry = none) ∧
    (∀ (entry : Image) (index : Nat) (bufferView : BufferView),
      entry.uri = none → entry.buffer_view = some index →
      json.buffer_views[index]? = some bufferView →
      buffers.length ≤ bufferView.buffer →
      source_image_entry env json buffers entry = none) ∧
    (∀ (format : Option ImageFormat) (offset len : Nat) (data : Bytes),
      data.length < offset + len →
      resolveBorrowed env format offset len (Except.ok data) = none) := by
  refine ⟨?_, ?_, ?_, ?_⟩
  · intro entry hu hbv
    cases hf : imageFormat entry with
    | none => simp only [source_image_entry, hf]
    | some format => simp only [source_image_entry, hf, hu, hbv]
  · intro entry index hu hbv hlen
    cases hf : imageFormat entry with
    | none => simp only [source_image_entry, hf]
    | some format =>
      simp only [source_image_entry, hf, hu, hbv,
        List.getElem?_eq_none hlen]
  · intro entry index bufferView hu hbv hvw hlen
    cases hf : imageFormat entry with
    | none => simp only [source_image_entry, hf]
    | some format =>
      simp only [source_image_entry, hf, hu, hbv, hvw,
        List.getElem?_eq_none hlen]
  · intro format offset len data hlen
    simp only [resolveBorrowed, if_neg (by omega : ¬offset + len ≤ data.length)]

/-- C10 witness: the four panic shapes on concrete inputs — an image with
neither URI nor buffer view, a buffer-view index `5` beyond the two views
of `testRoot`, a buffer index beyond an empty resource vector, and a view
of length 31 at offset 10 over a 40-byte buffer. -/
theorem unvalidated_image_resolution_panics_witness :
    source_image_entry testEnv testRoot [] (Image.mk none none none) = none ∧
    source_image_entry testEnv testRoot []
      (Image.mk none (some "image/png") (some 5)) = none ∧
    source_image_entry testEnv testRoot []
      (Image.mk none (some "image/png") (some 0)) = none ∧
    resolveBorrowed testEnv (some ImageFormat.png) 10 31
      (Except.ok (List.range 40)) = none := by
  have h := unvalidated_image_resolution_panics testEnv testRoot []
  exact ⟨h.1 (Image.mk none none none) rfl rfl,
    h.2.1 (Image.mk none (some "image/png") (some 5)) 5 rfl rfl (by decide),
    h.2.2.1 (Image.mk none (some "image/png") (some 0)) 0
      (BufferView.mk 0 10 20) rfl rfl (by decide) (by decide),
    h.2.2.2 (some ImageFormat.png) 10 31 (List.range 40) (by decide)⟩

end GltfStd
